import Mathlib

/-!
Verification of `backend/lambda/lambda_function.py` (water_resources).

Shallow embedding over exact rational arithmetic: Python floats are
modelled as `ℚ`, Python `int(...)` truncation as `pyInt`, Python
`round(x, 5)` as `round5` (round half to even on the scaled value, the
semantics Python documents for `round`).  The one transcendental the
source uses, `math.cos(math.radians(lat_mid))`, is passed in as a
rational parameter `cosLatMid`.
-/

/-- Python `int(q)`: truncation toward zero. -/
def pyInt (q : ℚ) : ℤ := if 0 ≤ q then ⌊q⌋ else ⌈q⌉

/-- Round a rational to the nearest integer, halves to even
(the tie-breaking rule Python documents for `round`). -/
def roundHalfEven (x : ℚ) : ℤ :=
  if x - ⌊x⌋ < 1/2 then ⌊x⌋
  else if 1/2 < x - ⌊x⌋ then ⌊x⌋ + 1
  else if Even ⌊x⌋ then ⌊x⌋ else ⌊x⌋ + 1

/-- Python `round(x, 5)`: round to 5 decimal places. -/
def round5 (x : ℚ) : ℚ := (roundHalfEven (x * 100000) : ℚ) / 100000

/-! ## Mosaic Assembler canvas sizing (`merge_images_properly`, lines 390-400)

```python
scale_factor = 20 if width_m * height_m > 1e9 else 10
width_pixels, height_pixels = [int(dim / scale_factor) for dim in (width_m, height_m)]
max_dimension = 5000
if width_pixels > max_dimension or height_pixels > max_dimension:
    scale_factor = max(width_pixels / max_dimension, height_pixels / max_dimension)
    width_pixels, height_pixels = int(width_pixels / scale_factor), int(height_m / scale_factor)
```
(note the source divides `height_m`, not `height_pixels`, in the last line). -/

/-- The canvas `(width_pixels, height_pixels)` computed by
`merge_images_properly` from the bounding box extent in meters. -/
def canvas_dims (width_m height_m : ℚ) : ℤ × ℤ :=
  let scale_factor : ℚ := if width_m * height_m > 1000000000 then 20 else 10
  let width_pixels : ℤ := pyInt (width_m / scale_factor)
  let height_pixels : ℤ := pyInt (height_m / scale_factor)
  let max_dimension : ℤ := 5000
  if width_pixels > max_dimension ∨ height_pixels > max_dimension then
    let scale_factor : ℚ :=
      max ((width_pixels : ℚ) / (max_dimension : ℚ)) ((height_pixels : ℚ) / (max_dimension : ℚ))
    (pyInt ((width_pixels : ℚ) / scale_factor), pyInt (height_m / scale_factor))
  else
    (width_pixels, height_pixels)

/-! ## Tile Partitioner (`split_boundary_box`, lines 305-331) -/

/-- An axis-aligned geographic rectangle, as produced by shapely
`box(minx, miny, maxx, maxy)`. -/
structure Rect where
  minx : ℚ
  miny : ℚ
  maxx : ℚ
  maxy : ℚ
deriving DecidableEq, Repr

/-- Lines 318-319: the max tile size actually used for the grid counts.
```python
if width_km * height_km > 1000:
    max_size_km = min(60, max(30, max_size_km))
```
-/
def adjustedMaxSize (width_km height_km max_size_km : ℚ) : ℚ :=
  if width_km * height_km > 1000 then min 60 (max 30 max_size_km) else max_size_km

/-- Model of `split_boundary_box(boundary_box, max_size_km)`.

Here `intersects r` models `r.intersects(total_shapely_polygon)` (shapely, an
opaque geometric test); `cosLatMid` models
`math.cos(math.radians(lat_mid))`, the only transcendental used. -/
def split_boundary_box (intersects : Rect → Bool) (cosLatMid : ℚ)
    (boundary_box : Rect) (max_size_km : ℚ) : List Rect :=
  let minx := boundary_box.minx
  let miny := boundary_box.miny
  let maxx := boundary_box.maxx
  let maxy := boundary_box.maxy
  let km_per_deg_lon : ℚ := 111 * cosLatMid
  let km_per_deg_lat : ℚ := 111
  let width_km := (maxx - minx) * km_per_deg_lon
  let height_km := (maxy - miny) * km_per_deg_lat
  if width_km ≤ max_size_km ∧ height_km ≤ max_size_km then
    [boundary_box]
  else
    let m := adjustedMaxSize width_km height_km max_size_km
    let num_x : ℤ := ⌈width_km / m⌉
    let num_y : ℤ := ⌈height_km / m⌉
    let step_x := (maxx - minx) / (num_x : ℚ)
    let step_y := (maxy - miny) / (num_y : ℚ)
    ((List.range num_x.toNat).flatMap (fun (i : ℕ) =>
      (List.range num_y.toNat).map (fun (j : ℕ) =>
        Rect.mk (minx + i * step_x) (miny + j * step_y)
                (minx + (i + 1) * step_x) (miny + (j + 1) * step_y)))).filter
      intersects

/-- The adjusted max tile size is positive whenever the input size is. -/
theorem adjustedMaxSize_pos (w h m : ℚ) (hm : 0 < m) : 0 < adjustedMaxSize w h m := by
  unfold adjustedMaxSize
  split
  · exact lt_min (by norm_num) (lt_of_lt_of_le (by norm_num) (le_max_left 30 m))
  · exact hm

/-- C1: evaluation of the canvas sizing at a bounding box of 200 km x 160 km.
The initially computed canvas is 10000 x 8000 pixels, so the 5000-pixel cap
branch is taken with factor 2; the code then computes the new height from
`height_m` (meters) instead of `height_pixels`, producing a 5000 x 80000
canvas: the height cap is violated and the aspect ratio 10000/8000 is not
preserved. -/
theorem canvas_dims_cap_bug : canvas_dims 200000 160000 = (5000, 80000) := by
  norm_num [canvas_dims, pyInt, max_def]

/-- C2 counterexample: a bounding box of 111 km x 111 km (area 12321 km²,
exceeding the 1000 km² threshold, and not fitting the default 30 km max tile
size) leaves the max tile size at exactly its input value 30 — it is not
grown above its input value. -/
theorem adjustedMaxSize_not_grown_at_default :
    (30:ℚ) < 111 ∧ (1000:ℚ) < 111 * 111 ∧ adjustedMaxSize 111 111 30 = 30 := by
  refine ⟨by norm_num, by norm_num, ?_⟩
  norm_num [adjustedMaxSize, max_def, min_def]

/-- C2 (amended): when the total area `width_km * height_km` exceeds 1000,
the max tile size used for the grid counts is `min 60 (max 30 input)`, i.e.
clamped into [30, 60]: it is bounded by 60 km, grown above the input exactly
when the input is below 30, and strictly larger than the default 30 whenever
the input is strictly larger than 30. -/
theorem adjustedMaxSize_clamps (w h m : ℚ) (harea : 1000 < w * h) :
    adjustedMaxSize w h m = min 60 (max 30 m) ∧
    adjustedMaxSize w h m ≤ 60 ∧
    (m < 30 → m < adjustedMaxSize w h m) ∧
    (30 < m → 30 < adjustedMaxSize w h m) := by
  unfold adjustedMaxSize
  rw [if_pos harea]
  refine ⟨rfl, min_le_left _ _, ?_, ?_⟩
  · intro h30
    exact lt_of_lt_of_le h30 (le_min (by norm_num) (le_max_left 30 m))
  · intro h30
    exact lt_min (by norm_num) (lt_of_lt_of_le h30 (le_max_right 30 m))

/-- Witness for C2 (amended): with input max size 40 on a 111 km x 111 km
box, the grid uses tile size `adjustedMaxSize 111 111 40 > 30`. -/
theorem adjustedMaxSize_clamps_witness :
    (1000:ℚ) < 111 * 111 ∧ (30:ℚ) < 40 ∧ 30 < adjustedMaxSize 111 111 40 :=
  ⟨by norm_num, by norm_num,
    (adjustedMaxSize_clamps 111 111 40 (by norm_num)).2.2.2 (by norm_num)⟩

/-! ## Tile Fetcher retry loop (`export_sub_polygon_as_png`, lines 345-356)

```python
for retry in range(max_retries):
    try:
        url = rgb_image.getDownloadURL({...})
        response = requests.get(url, timeout=120)
        if response.status_code == 200:
            return Image.open(io.BytesIO(response.content)).convert("RGB")
        print(f"Failed to download sub-rectangle image: ...")
        time.sleep(2)
    except Exception as e:
        print(f"Error downloading image: ...")
        time.sleep(2)
return None
```
-/

/-- One attempt's observable outcome: `ok status img` models `requests.get`
returning a response with HTTP status `status` (the image decodes to `img`
when the status is 200); `exn` models a network or decoding exception raised
anywhere in the attempt body. -/
inductive FetchResp (α : Type u) where
  | ok (status : ℕ) (img : α)
  | exn

/-- The attempt succeeds exactly when the response has status 200
(`if response.status_code == 200: return ...`). -/
def attempt_succeeds : FetchResp α → Option α
  | .ok status img => if status = 200 then some img else none
  | .exn => none

/-- The retry loop body: `respond n` is attempt number `n`'s outcome.  The
result records the returned image (or absence), the number of attempts
made, and the total seconds spent in `time.sleep(2)` backoffs. -/
def export_retry_loop (respond : ℕ → FetchResp α) :
    ℕ → ℕ → ℕ → ℕ → Option α × ℕ × ℕ
  | _, 0, attempts, sleep => (none, attempts, sleep)
  | retry, r + 1, attempts, sleep =>
    match attempt_succeeds (respond retry) with
    | some img => (some img, attempts + 1, sleep)
    | none => export_retry_loop respond (retry + 1) r (attempts + 1) (sleep + 2)

/-- `export_sub_polygon_as_png(image, boundary, max_retries=3)`, observed
through its retry behaviour. -/
def export_sub_polygon_as_png (respond : ℕ → FetchResp α) (max_retries : ℕ) :
    Option α × ℕ × ℕ :=
  export_retry_loop respond 0 max_retries 0 0

/-- C3: a fetch whose attempts always fail makes exactly 3 attempts, yields
absence (`none`, not a raised error — the function is total and returns),
each failed attempt is followed by a 2-second backoff (total sleep is twice
the attempt count), and the total backoff time is at least 4 seconds. -/
theorem export_always_fails_three_attempts (respond : ℕ → FetchResp α)
    (hfail : ∀ n, attempt_succeeds (respond n) = none) :
    (export_sub_polygon_as_png respond 3).1 = none ∧
    (export_sub_polygon_as_png respond 3).2.1 = 3 ∧
    (export_sub_polygon_as_png respond 3).2.2 =
      2 * (export_sub_polygon_as_png respond 3).2.1 ∧
    4 ≤ (export_sub_polygon_as_png respond 3).2.2 := by
  have step : ∀ retry r a s, export_retry_loop respond retry (r + 1) a s
      = export_retry_loop respond (retry + 1) r (a + 1) (s + 2) := by
    intro retry r a s
    simp [export_retry_loop, hfail retry]
  have final : export_sub_polygon_as_png respond 3 = (none, 3, 6) := by
    unfold export_sub_polygon_as_png
    rw [show (3:ℕ) = 2 + 1 from rfl, step, show (2:ℕ) = 1 + 1 from rfl, step,
        show (1:ℕ) = 0 + 1 from rfl, step]
    rfl
  rw [final]
  exact ⟨rfl, rfl, rfl, by norm_num⟩

/-- Witness for C3: a fetch raising an exception on every attempt. -/
theorem export_always_fails_three_attempts_witness :
    attempt_succeeds (FetchResp.exn : FetchResp Unit) = none ∧
    (export_sub_polygon_as_png (fun _ => (FetchResp.exn : FetchResp Unit)) 3).1 = none ∧
    (export_sub_polygon_as_png (fun _ => (FetchResp.exn : FetchResp Unit)) 3).2.1 = 3 ∧
    4 ≤ (export_sub_polygon_as_png (fun _ => (FetchResp.exn : FetchResp Unit)) 3).2.2 :=
  ⟨rfl,
    (export_always_fails_three_attempts (fun _ => FetchResp.exn) (fun _ => rfl)).1,
    (export_always_fails_three_attempts (fun _ => FetchResp.exn) (fun _ => rfl)).2.1,
    (export_always_fails_three_attempts (fun _ => FetchResp.exn) (fun _ => rfl)).2.2.2⟩

/-! ## Concurrent Fetch Orchestrator (`process_and_export_image`, lines 426-444) -/

/-- The fan-in loop (lines 432-442): each tile's outcome is `some` result or
`none` (an exhausted-retry absence or a raised exception, both of which are
caught/skipped and leave `results` untouched); successes are appended as the
futures complete. -/
def collect_results (outcomes : List (Option α)) : List α :=
  outcomes.foldl (fun acc o => match o with | some r => acc ++ [r] | none => acc) []

/-- `merge_images_properly` at the level of its entry guard (lines 385-388):
drop entries without a usable image, return `None` when nothing is left, and
otherwise assemble the remaining results (`assemble` abstracts the canvas
work of lines 390-424, modelled separately by `canvas_dims` and
`create_boundary_mask`). -/
def merge_images_properly (results : List (Option α)) (assemble : List α → β) : Option β :=
  let valid := results.filterMap id
  if valid.isEmpty then none else some (assemble valid)

/-- Line 444: `return merge_images_properly(results, output_dir, image_date)
if results else None`. -/
def process_and_export_image (outcomes : List (Option α)) (assemble : List α → β) : Option β :=
  let results := collect_results outcomes
  if results.isEmpty then none else merge_images_properly (results.map some) assemble

theorem collect_results_go (outcomes : List (Option α)) (acc : List α) :
    outcomes.foldl (fun acc o => match o with | some r => acc ++ [r] | none => acc) acc
      = acc ++ outcomes.filterMap id := by
  induction outcomes generalizing acc with
  | nil => simp
  | cons o rest ih =>
    cases o with
    | some r => simp [List.foldl_cons, ih, List.filterMap_cons]
    | none => simp [List.foldl_cons, ih, List.filterMap_cons]

/-- The fan-in loop collects exactly the successful outcomes, in order. -/
theorem collect_results_eq (outcomes : List (Option α)) :
    collect_results outcomes = outcomes.filterMap id := by
  simpa [collect_results] using collect_results_go outcomes []

theorem filterMap_id_length (outcomes : List (Option α)) :
    (outcomes.filterMap id).length + outcomes.countP (fun o => o.isNone) = outcomes.length := by
  induction outcomes with
  | nil => rfl
  | cons o rest ih =>
    cases o with
    | some r =>
      simp [List.filterMap_cons, List.countP_cons]
      omega
    | none =>
      simp [List.filterMap_cons, List.countP_cons]
      omega

/-- C4: a failed tile (outcome `none`) does not affect the sibling tiles or
the assembly: the pipeline assembles exactly the successful results — of N
outcomes with k failures, the `assemble` step receives the N - k successes —
and when zero tiles succeed the pipeline returns `none` (no mosaic). -/
theorem process_and_export_image_partial_failure
    (outcomes : List (Option α)) (assemble : List α → β) :
    process_and_export_image outcomes assemble =
      (if (outcomes.filterMap id).isEmpty then none
       else some (assemble (outcomes.filterMap id))) ∧
    (outcomes.filterMap id).length + outcomes.countP (fun o => o.isNone) = outcomes.length := by
  refine ⟨?_, filterMap_id_length outcomes⟩
  have hmap : ((outcomes.filterMap id).map some).filterMap id = outcomes.filterMap id := by
    simp [List.filterMap_map]
  by_cases hnil : outcomes.filterMap id = []
  · simp [process_and_export_image, collect_results_eq, hnil]
  · simp [process_and_export_image, merge_images_properly, collect_results_eq, hmap,
      List.isEmpty_iff, hnil]

/-- C8: every tile returned by the partitioner lies within the original
bounding box (its west/south/east/north coordinates lie within the input
box's), and every returned tile passes the polygon-intersection test
(the single-box branch returns the box itself, which intersects the polygon
by the Boundary invariant, supplied here as the hypothesis `hbb`). -/
theorem split_boundary_box_tiles_within_box
    (intersects : Rect → Bool) (cosLatMid : ℚ) (bb : Rect) (max_size_km : ℚ)
    (hx : bb.minx < bb.maxx) (hy : bb.miny < bb.maxy)
    (hc : 0 < cosLatMid) (hm : 0 < max_size_km)
    (hbb : intersects bb = true) :
    ∀ t ∈ split_boundary_box intersects cosLatMid bb max_size_km,
      bb.minx ≤ t.minx ∧ t.maxx ≤ bb.maxx ∧
      bb.miny ≤ t.miny ∧ t.maxy ≤ bb.maxy ∧ intersects t = true := by
  intro t ht
  simp only [split_boundary_box] at ht
  split at ht
  · simp only [List.mem_singleton] at ht
    subst ht
    exact ⟨le_refl _, le_refl _, le_refl _, le_refl _, hbb⟩
  · rw [List.mem_filter] at ht
    obtain ⟨hmem, hint⟩ := ht
    rw [List.mem_flatMap] at hmem
    obtain ⟨i, hi, hmem2⟩ := hmem
    rw [List.mem_map] at hmem2
    obtain ⟨j, hj, rfl⟩ := hmem2
    rw [List.mem_range] at hi hj
    have hw : (0:ℚ) < bb.maxx - bb.minx := sub_pos.mpr hx
    have hh : (0:ℚ) < bb.maxy - bb.miny := sub_pos.mpr hy
    have hWkm : (0:ℚ) < (bb.maxx - bb.minx) * (111 * cosLatMid) :=
      mul_pos hw (mul_pos (by norm_num) hc)
    have hHkm : (0:ℚ) < (bb.maxy - bb.miny) * 111 := mul_pos hh (by norm_num)
    have hmadj : 0 < adjustedMaxSize ((bb.maxx - bb.minx) * (111 * cosLatMid))
        ((bb.maxy - bb.miny) * 111) max_size_km := adjustedMaxSize_pos _ _ _ hm
    set madj := adjustedMaxSize ((bb.maxx - bb.minx) * (111 * cosLatMid))
        ((bb.maxy - bb.miny) * 111) max_size_km with hmadjdef
    have hnx : (0:ℤ) < ⌈(bb.maxx - bb.minx) * (111 * cosLatMid) / madj⌉ :=
      Int.ceil_pos.mpr (div_pos hWkm hmadj)
    have hny : (0:ℤ) < ⌈(bb.maxy - bb.miny) * 111 / madj⌉ :=
      Int.ceil_pos.mpr (div_pos hHkm hmadj)
    set nx := ⌈(bb.maxx - bb.minx) * (111 * cosLatMid) / madj⌉ with hnxdef
    set ny := ⌈(bb.maxy - bb.miny) * 111 / madj⌉ with hnydef
    have hnxq : (0:ℚ) < (nx:ℚ) := by exact_mod_cast hnx
    have hnyq : (0:ℚ) < (ny:ℚ) := by exact_mod_cast hny
    have hsx : (0:ℚ) < (bb.maxx - bb.minx) / (nx:ℚ) := div_pos hw hnxq
    have hsy : (0:ℚ) < (bb.maxy - bb.miny) / (ny:ℚ) := div_pos hh hnyq
    have hi1 : ((i:ℚ) + 1) ≤ (nx:ℚ) := by
      have h1 : (i:ℤ) + 1 ≤ nx := by omega
      exact_mod_cast h1
    have hj1 : ((j:ℚ) + 1) ≤ (ny:ℚ) := by
      have h1 : (j:ℤ) + 1 ≤ ny := by omega
      exact_mod_cast h1
    have hxcancel : (nx:ℚ) * ((bb.maxx - bb.minx) / (nx:ℚ)) = bb.maxx - bb.minx :=
      mul_div_cancel₀ _ (ne_of_gt hnxq)
    have hycancel : (ny:ℚ) * ((bb.maxy - bb.miny) / (ny:ℚ)) = bb.maxy - bb.miny :=
      mul_div_cancel₀ _ (ne_of_gt hnyq)
    refine ⟨?_, ?_, ?_, ?_, hint⟩
    · exact le_add_of_nonneg_right (mul_nonneg (Nat.cast_nonneg i) (le_of_lt hsx))
    · have h2 : ((i:ℚ) + 1) * ((bb.maxx - bb.minx) / (nx:ℚ)) ≤
          (nx:ℚ) * ((bb.maxx - bb.minx) / (nx:ℚ)) :=
        mul_le_mul_of_nonneg_right hi1 (le_of_lt hsx)
      simp only []
      linarith [hxcancel ▸ h2]
    · exact le_add_of_nonneg_right (mul_nonneg (Nat.cast_nonneg j) (le_of_lt hsy))
    · have h2 : ((j:ℚ) + 1) * ((bb.maxy - bb.miny) / (ny:ℚ)) ≤
          (ny:ℚ) * ((bb.maxy - bb.miny) / (ny:ℚ)) :=
        mul_le_mul_of_nonneg_right hj1 (le_of_lt hsy)
      simp only []
      linarith [hycancel ▸ h2]

/-- Witness for C8: a small equator-centred box is small enough to be
returned as the single tile, and every returned tile satisfies the
containment and intersection properties. -/
theorem split_boundary_box_tiles_within_box_witness :
    split_boundary_box (fun _ => true) 1 (Rect.mk 0 (-(1/100)) (1/100) (1/100)) 30
      = [Rect.mk 0 (-(1/100)) (1/100) (1/100)] ∧
    ∀ t ∈ split_boundary_box (fun _ => true) 1 (Rect.mk 0 (-(1/100)) (1/100) (1/100)) 30,
      (Rect.mk (0:ℚ) (-(1/100)) (1/100) (1/100)).minx ≤ t.minx ∧
      t.maxx ≤ (Rect.mk (0:ℚ) (-(1/100)) (1/100) (1/100)).maxx ∧
      (Rect.mk (0:ℚ) (-(1/100)) (1/100) (1/100)).miny ≤ t.miny ∧
      t.maxy ≤ (Rect.mk (0:ℚ) (-(1/100)) (1/100) (1/100)).maxy ∧
      (fun _ => true) t = true :=
  ⟨by norm_num [split_boundary_box],
    split_boundary_box_tiles_within_box (fun _ => true) 1
      (Rect.mk 0 (-(1/100)) (1/100) (1/100)) 30
      (by norm_num) (by norm_num) (by norm_num) (by norm_num) rfl⟩

/-! ## Area Statistics Calculator (`calculate_area_statistics`, lines 511-545) -/

/-- Line 513: the 11 known land-cover class names, indexed by class value. -/
def CLASS_NAMES : List String :=
  ["water", "trees", "grass", "flooded_vegetation", "crops", "shrub_and_scrub",
   "built", "bare", "snow_and_ice", "cloud", "natural_forest"]

/-- Lines 516-521: the loop over the histogram keeps exactly the entries
whose integer class value is a known index (`class_idx < len(CLASS_NAMES)`).
A histogram is a list of (class value, pixel count) pairs with distinct
class values (it comes from a Python dict); pixel counts may be fractional
(Earth Engine frequency histograms report partial pixels). -/
def known_entries (histogram : List (ℕ × ℚ)) : List (ℕ × ℚ) :=
  histogram.filter (fun p => p.1 < CLASS_NAMES.length)

/-- Lines 516-521: `total_pixels` accumulates the counts of the known
entries only. -/
def total_pixels (histogram : List (ℕ × ℚ)) : ℚ :=
  ((known_entries histogram).map (fun p => p.2)).sum

/-- Line 523 plus the fill-in loop of lines 524-526: per-class areas keyed
by class name — first the classes seen in the histogram
(`round((pixels / total_pixels) * total_area, 5) if total_pixels > 0 else
0.0`), then every remaining class name at area 0.0. -/
def class_areas (histogram : List (ℕ × ℚ)) (total_area : ℚ) : List (String × ℚ) :=
  let tp := total_pixels histogram
  let present := (known_entries histogram).map (fun p =>
    (CLASS_NAMES.getD p.1 "", if 0 < tp then round5 (p.2 / tp * total_area) else 0))
  present ++
    (CLASS_NAMES.filter (fun n => ! present.any (fun q => q.1 = n))).map (fun n => (n, 0))

/-- Dict lookup `class_areas[name]` (the fill-in loop guarantees every
class name is present; absent keys would read as 0). -/
def area_of (cas : List (String × ℚ)) (name : String) : ℚ :=
  ((cas.find? (fun p => p.1 = name)).map (fun p => p.2)).getD 0

/-- Stable insertion into a list sorted by descending area, modelling
Python's stable `sorted(class_areas.items(), key=lambda x: x[1],
reverse=True)` (line 539). -/
def insertDescByArea (p : String × ℚ) : List (String × ℚ) → List (String × ℚ)
  | [] => [p]
  | q :: rest => if q.2 ≤ p.2 then p :: q :: rest else q :: insertDescByArea p rest

/-- Insertion sort by descending area (line 539). -/
def sortDescByArea : List (String × ℚ) → List (String × ℚ)
  | [] => []
  | p :: rest => insertDescByArea p (sortDescByArea rest)

/-- One entry of the emitted `land_cover_classes` map. -/
structure LandCoverEntry where
  name : String
  area_km2 : ℚ
  percentage : ℚ
deriving DecidableEq, Repr

/-- The statistics record built in lines 530-540 (the `date` string field is
omitted: it is pass-through data). -/
structure StatsData where
  total_area_km2 : ℚ
  forest_area_km2 : ℚ
  natural_forest_km2 : ℚ
  natural_forest_percentage : ℚ
  other_trees_km2 : ℚ
  other_trees_percentage : ℚ
  land_cover_classes : List LandCoverEntry
deriving DecidableEq, Repr

/-- `calculate_area_statistics(image, boundary, total_area, ...)`, lines
511-545, starting from the histogram the remote engine returned. -/
def calculate_area_statistics (histogram : List (ℕ × ℚ)) (total_area : ℚ) : StatsData :=
  let cas := class_areas histogram total_area
  let natural_forest_area := area_of cas "natural_forest"
  let trees_area := area_of cas "trees"
  let total_forest_area := natural_forest_area + trees_area
  { total_area_km2 := round5 total_area
    forest_area_km2 := round5 total_forest_area
    natural_forest_km2 := round5 natural_forest_area
    natural_forest_percentage :=
      if 0 < total_forest_area then round5 (natural_forest_area / total_forest_area * 100)
      else 0
    other_trees_km2 := round5 trees_area
    other_trees_percentage :=
      if 0 < total_forest_area then round5 (trees_area / total_forest_area * 100) else 0
    land_cover_classes :=
      ((sortDescByArea cas).filter (fun p => 0 < p.2)).map (fun p =>
        LandCoverEntry.mk p.1 (round5 p.2)
          (if 0 < total_area then round5 (p.2 / total_area * 100) else 0)) }

theorem class_names_getD_inj :
    ∀ a, a < CLASS_NAMES.length → ∀ b, b < CLASS_NAMES.length →
      CLASS_NAMES.getD a "" = CLASS_NAMES.getD b "" → a = b := by decide

theorem mem_insertDescByArea {p x : String × ℚ} {l : List (String × ℚ)} :
    x ∈ insertDescByArea p l ↔ x = p ∨ x ∈ l := by
  induction l with
  | nil => simp [insertDescByArea]
  | cons q rest ih =>
    unfold insertDescByArea
    split
    · simp [List.mem_cons]
    · simp [List.mem_cons, ih]
      tauto

theorem mem_sortDescByArea {x : String × ℚ} {l : List (String × ℚ)} :
    x ∈ sortDescByArea l ↔ x ∈ l := by
  induction l with
  | nil => simp [sortDescByArea]
  | cons p rest ih => simp [sortDescByArea, mem_insertDescByArea, ih]

theorem find?_name_eq (l : List (ℕ × ℚ)) (val : ℕ × ℚ → ℚ) (i : ℕ) (c : ℚ)
    (hmem : (i, c) ∈ l) (hlt : ∀ p ∈ l, p.1 < CLASS_NAMES.length)
    (hnd : (l.map (fun p => p.1)).Nodup) :
    (l.map (fun p => (CLASS_NAMES.getD p.1 "", val p))).find?
        (fun q => q.1 = CLASS_NAMES.getD i "")
      = some (CLASS_NAMES.getD i "", val (i, c)) := by
  induction l with
  | nil => cases hmem
  | cons p rest ih =>
    rw [List.map_cons] at hnd
    rw [List.nodup_cons] at hnd
    rcases List.mem_cons.mp hmem with heq | hmem2
    · subst heq
      simp [List.find?_cons_of_pos]
    · have hi : i ∈ rest.map (fun p => p.1) := by
        exact List.mem_map.mpr ⟨(i, c), hmem2, rfl⟩
      have hne : p.1 ≠ i := fun he => hnd.1 (he ▸ hi)
      have hpred : ¬ (CLASS_NAMES.getD p.1 "" = CLASS_NAMES.getD i "") := by
        intro he
        exact hne (class_names_getD_inj p.1 (hlt p (List.mem_cons_self p rest)) i
          (hlt (i, c) (List.mem_cons_of_mem p hmem2)) he)
      rw [List.map_cons, List.find?_cons_of_neg, ih hmem2
        (fun q hq => hlt q (List.mem_cons_of_mem p hq)) hnd.2]
      simpa using hpred

/-- C5: for every class value present in the histogram (with distinct keys,
as a Python dict has) whose value is a known class index, when the total
counted pixel count is positive, the recorded per-class area is
`round((class_pixels / total_pixels) * total_area, 5)`. -/
theorem calculate_area_statistics_area_formula (histogram : List (ℕ × ℚ)) (A : ℚ)
    (hnd : (histogram.map (fun p => p.1)).Nodup)
    (i : ℕ) (c : ℚ) (hmem : (i, c) ∈ histogram) (hi : i < CLASS_NAMES.length)
    (hpos : 0 < total_pixels histogram) :
    area_of (class_areas histogram A) (CLASS_NAMES.getD i "")
      = round5 (c / total_pixels histogram * A) := by
  have hmem2 : (i, c) ∈ known_entries histogram := by
    rw [known_entries, List.mem_filter]
    exact ⟨hmem, by simpa using hi⟩
  have hlt : ∀ p ∈ known_entries histogram, p.1 < CLASS_NAMES.length := by
    intro p hp
    have h2 := (List.mem_filter.mp hp).2
    simpa using h2
  have hnd2 : ((known_entries histogram).map (fun p => p.1)).Nodup := by
    refine List.Nodup.sublist ?_ hnd
    exact ((List.filter_sublist histogram).map (fun p => p.1))
  rw [area_of, class_areas]
  rw [List.find?_append]
  rw [find?_name_eq (known_entries histogram)
    (fun p => if 0 < total_pixels histogram then round5 (p.2 / total_pixels histogram * A)
      else 0) i c hmem2 hlt hnd2]
  simp [hpos]

/-- Witness for C5: histogram {class A: 60 pixels, class B: 40 pixels} with
ground-truth area 10 km² gives A (water) 6 km², B (grass) 4 km², and the
emitted per-class areas sum to the ground-truth area 10 km². -/
theorem calculate_area_statistics_area_formula_witness :
    (0:ℚ) < total_pixels [(0, 60), (2, 40)] ∧
    area_of (class_areas [(0, 60), (2, 40)] 10) "water" = 6 ∧
    area_of (class_areas [(0, 60), (2, 40)] 10) "grass" = 4 ∧
    (((calculate_area_statistics [(0, 60), (2, 40)] 10).land_cover_classes).map
      (fun e => e.area_km2)).sum = 10 := by
  have htp : total_pixels [(0, 60), (2, 40)] = 100 := by
    norm_num [total_pixels, known_entries, CLASS_NAMES]
  have hnd : (([(0, 60), (2, 40)] : List (ℕ × ℚ)).map (fun p => p.1)).Nodup := by
    simp
  have hw := calculate_area_statistics_area_formula [(0, 60), (2, 40)] 10 hnd 0 60
    (List.mem_cons_self _ _) (by norm_num [CLASS_NAMES]) (by rw [htp]; norm_num)
  have hg := calculate_area_statistics_area_formula [(0, 60), (2, 40)] 10 hnd 2 40
    (List.mem_cons_of_mem _ (List.mem_cons_self _ _)) (by norm_num [CLASS_NAMES])
    (by rw [htp]; norm_num)
  rw [htp] at hw hg
  have hwname : CLASS_NAMES.getD 0 "" = "water" := rfl
  have hgname : CLASS_NAMES.getD 2 "" = "grass" := rfl
  rw [hwname] at hw
  rw [hgname] at hg
  have hcas : class_areas [(0, 60), (2, 40)] 10 =
      [("water", 6), ("grass", 4), ("trees", 0), ("flooded_vegetation", 0), ("crops", 0),
       ("shrub_and_scrub", 0), ("built", 0), ("bare", 0), ("snow_and_ice", 0), ("cloud", 0),
       ("natural_forest", 0)] := by
    norm_num [class_areas, total_pixels, known_entries, CLASS_NAMES, round5, roundHalfEven]
    rfl
  refine ⟨by rw [htp]; norm_num, ?_, ?_, ?_⟩
  · rw [hw]
    norm_num [round5, roundHalfEven]
  · rw [hg]
    norm_num [round5, roundHalfEven]
  · simp only [calculate_area_statistics, hcas]
    norm_num [sortDescByArea, insertDescByArea, round5, roundHalfEven]

/-- C6: total forest area is natural-forest area plus trees area; the
natural-forest and other-trees percentages are fractions of total forest
area (zero when that denominator is not positive); every emitted
`land_cover_classes` entry carries a percentage that is a fraction of the
total (ground-truth) area (zero when that is not positive). -/
theorem calculate_area_statistics_denominators (histogram : List (ℕ × ℚ)) (A : ℚ) :
    (calculate_area_statistics histogram A).forest_area_km2 =
      round5 (area_of (class_areas histogram A) "natural_forest" +
        area_of (class_areas histogram A) "trees") ∧
    (calculate_area_statistics histogram A).natural_forest_percentage =
      (if 0 < area_of (class_areas histogram A) "natural_forest" +
            area_of (class_areas histogram A) "trees" then
        round5 (area_of (class_areas histogram A) "natural_forest" /
          (area_of (class_areas histogram A) "natural_forest" +
           area_of (class_areas histogram A) "trees") * 100)
      else 0) ∧
    (calculate_area_statistics histogram A).other_trees_percentage =
      (if 0 < area_of (class_areas histogram A) "natural_forest" +
            area_of (class_areas histogram A) "trees" then
        round5 (area_of (class_areas histogram A) "trees" /
          (area_of (class_areas histogram A) "natural_forest" +
           area_of (class_areas histogram A) "trees") * 100)
      else 0) ∧
    ∀ e ∈ (calculate_area_statistics histogram A).land_cover_classes,
      ∃ p ∈ class_areas histogram A, e.name = p.1 ∧ e.area_km2 = round5 p.2 ∧
        e.percentage = (if 0 < A then round5 (p.2 / A * 100) else 0) := by
  refine ⟨rfl, rfl, rfl, ?_⟩
  intro e he
  simp only [calculate_area_statistics] at he
  obtain ⟨p, hfil, rfl⟩ := List.mem_map.mp he
  have hp := List.mem_filter.mp hfil
  exact ⟨p, mem_sortDescByArea.mp hp.1, rfl, rfl, rfl⟩

theorem class_areas_all_zero (histogram : List (ℕ × ℚ)) (A : ℚ)
    (h0 : total_pixels histogram = 0) :
    ∀ q ∈ class_areas histogram A, q.2 = 0 := by
  intro q hq
  rw [class_areas, List.mem_append] at hq
  rcases hq with h | h
  · obtain ⟨p, hp, rfl⟩ := List.mem_map.mp h
    simp [h0]
  · obtain ⟨n, hn, rfl⟩ := List.mem_map.mp h
    rfl

theorem area_of_all_zero (histogram : List (ℕ × ℚ)) (A : ℚ)
    (h0 : total_pixels histogram = 0) (name : String) :
    area_of (class_areas histogram A) name = 0 := by
  rw [area_of]
  cases hfind : (class_areas histogram A).find? (fun p => p.1 = name) with
  | none => rfl
  | some q =>
    have hq := List.mem_of_find?_eq_some hfind
    simp [class_areas_all_zero histogram A h0 q hq]

theorem round5_zero : round5 0 = 0 := by
  norm_num [round5, roundHalfEven]

/-- C7: a histogram whose total counted pixel count is zero (the empty
histogram included) yields all class areas 0, all percentages 0, and an
empty `land_cover_classes` map; independently, a zero total-forest
denominator gives zero forest percentages, and a zero total area gives zero
per-class percentages — each division is guarded, so no division by zero is
evaluated. -/
theorem calculate_area_statistics_zero_denominators (histogram : List (ℕ × ℚ)) (A : ℚ) :
    (total_pixels histogram = 0 →
      (∀ name, area_of (class_areas histogram A) name = 0) ∧
      (calculate_area_statistics histogram A).forest_area_km2 = 0 ∧
      (calculate_area_statistics histogram A).natural_forest_km2 = 0 ∧
      (calculate_area_statistics histogram A).other_trees_km2 = 0 ∧
      (calculate_area_statistics histogram A).natural_forest_percentage = 0 ∧
      (calculate_area_statistics histogram A).other_trees_percentage = 0 ∧
      (calculate_area_statistics histogram A).land_cover_classes = []) ∧
    (area_of (class_areas histogram A) "natural_forest" +
        area_of (class_areas histogram A) "trees" = 0 →
      (calculate_area_statistics histogram A).natural_forest_percentage = 0 ∧
      (calculate_area_statistics histogram A).other_trees_percentage = 0) ∧
    (A = 0 → ∀ e ∈ (calculate_area_statistics histogram A).land_cover_classes,
      e.percentage = 0) := by
  refine ⟨?_, ?_, ?_⟩
  · intro h0
    have hnf := area_of_all_zero histogram A h0 "natural_forest"
    have htr := area_of_all_zero histogram A h0 "trees"
    have hlcc : (calculate_area_statistics histogram A).land_cover_classes = [] := by
      simp only [calculate_area_statistics]
      rw [List.filter_eq_nil_iff.mpr, List.map_nil]
      intro p hp
      have := class_areas_all_zero histogram A h0 p (mem_sortDescByArea.mp hp)
      simp [this]
    refine ⟨area_of_all_zero histogram A h0, ?_, ?_, ?_, ?_, ?_, hlcc⟩ <;>
      simp [calculate_area_statistics, hnf, htr, round5_zero]
  · intro h0
    constructor <;> simp [calculate_area_statistics, h0]
  · intro h0 e he
    simp only [calculate_area_statistics] at he
    obtain ⟨p, hfil, rfl⟩ := List.mem_map.mp he
    simp [h0]

/-- Witness for C7: the empty histogram with total area 0. -/
theorem calculate_area_statistics_zero_denominators_witness :
    total_pixels ([] : List (ℕ × ℚ)) = 0 ∧
    area_of (class_areas ([] : List (ℕ × ℚ)) 0) "water" = 0 ∧
    (calculate_area_statistics ([] : List (ℕ × ℚ)) 0).land_cover_classes = [] ∧
    (calculate_area_statistics ([] : List (ℕ × ℚ)) 0).natural_forest_percentage = 0 :=
  ⟨rfl,
    ((calculate_area_statistics_zero_denominators [] 0).1 rfl).1 "water",
    ((calculate_area_statistics_zero_denominators [] 0).1 rfl).2.2.2.2.2.2,
    ((calculate_area_statistics_zero_denominators [] 0).1 rfl).2.2.2.2.1⟩

theorem known_entries_drop_unknown (pre post : List (ℕ × ℚ)) (v : ℕ) (c : ℚ)
    (hv : CLASS_NAMES.length ≤ v) :
    known_entries (pre ++ (v, c) :: post) = known_entries (pre ++ post) := by
  simp [known_entries, List.filter_append, List.filter_cons, Nat.not_lt.mpr hv]

theorem class_areas_names (histogram : List (ℕ × ℚ)) (A : ℚ) :
    ∀ p ∈ class_areas histogram A, p.1 ∈ CLASS_NAMES := by
  intro p hp
  rw [class_areas, List.mem_append] at hp
  rcases hp with h | h
  · obtain ⟨q, hq, rfl⟩ := List.mem_map.mp h
    have hlt : q.1 < CLASS_NAMES.length := by
      have h2 := (List.mem_filter.mp hq).2
      simpa using h2
    rw [List.getD_eq_getElem CLASS_NAMES "" hlt]
    exact List.getElem_mem hlt
  · obtain ⟨n, hn, rfl⟩ := List.mem_map.mp h
    exact (List.mem_filter.mp hn).1

/-- C10: a histogram entry whose class value is not a known class index
(value ≥ 11) contributes nothing: deleting it leaves the entire statistics
record unchanged (so it is excluded from the per-class counts and the
total), and every emitted `land_cover_classes` entry is named by one of the
11 known class names, so unknown labels never appear in the output. -/
theorem calculate_area_statistics_unknown_classes
    (pre post : List (ℕ × ℚ)) (v : ℕ) (c : ℚ) (A : ℚ)
    (hv : CLASS_NAMES.length ≤ v) :
    calculate_area_statistics (pre ++ (v, c) :: post) A =
      calculate_area_statistics (pre ++ post) A ∧
    ∀ e ∈ (calculate_area_statistics (pre ++ post) A).land_cover_classes,
      e.name ∈ CLASS_NAMES := by
  have hke := known_entries_drop_unknown pre post v c hv
  have htp : total_pixels (pre ++ (v, c) :: post) = total_pixels (pre ++ post) := by
    rw [total_pixels, hke, total_pixels]
  have hca : class_areas (pre ++ (v, c) :: post) A = class_areas (pre ++ post) A := by
    rw [class_areas, hke, htp, class_areas]
  refine ⟨by rw [calculate_area_statistics, hca, calculate_area_statistics], ?_⟩
  intro e he
  simp only [calculate_area_statistics] at he
  obtain ⟨p, hfil, rfl⟩ := List.mem_map.mp he
  exact class_areas_names (pre ++ post) A p
    (mem_sortDescByArea.mp (List.mem_filter.mp hfil).1)

/-- Witness for C10: inserting the unknown class value 11 into a histogram
leaves the statistics unchanged. -/
theorem calculate_area_statistics_unknown_classes_witness :
    CLASS_NAMES.length ≤ 11 ∧
    calculate_area_statistics ([(0, 5)] ++ (11, 7) :: []) 3 =
      calculate_area_statistics ([(0, 5)] ++ []) 3 :=
  ⟨by norm_num [CLASS_NAMES],
    (calculate_area_statistics_unknown_classes [(0, 5)] [] 11 7 3
      (by norm_num [CLASS_NAMES])).1⟩

/-! ## Boundary mask (`create_boundary_mask`, lines 368-381) and the
composite of line 419 -/

/-- Lines 372-375, the `geo_to_pixel` closure inside `create_boundary_mask`:
a linear geo→pixel transform, truncated to int and clamped to the canvas. -/
def geo_to_pixel (minx miny maxx maxy : ℚ) (width_pixels height_pixels : ℤ)
    (lon lat : ℚ) : ℤ × ℤ :=
  let x := pyInt ((lon - minx) / (maxx - minx) * width_pixels)
  let y := pyInt ((maxy - lat) / (maxy - miny) * height_pixels)
  (max 0 (min x (width_pixels - 1)), max 0 (min y (height_pixels - 1)))

/-- Modelled from the spec: PIL's `ImageDraw.polygon(xy, fill=255)` is a
library primitive, not repository code; the spec describes the mask step as
tracing each ring "as a filled polygon in pixel space".  We model the filled
pixel set for the axis-aligned rectangular rings this development uses: PIL
fills a polygon's interior and boundary, and for an axis-aligned rectangle
that is exactly the pixel box spanned by its vertices. -/
def polygon_fill (pts : List (ℤ × ℤ)) (px : ℤ × ℤ) : Bool :=
  match pts with
  | [] => false
  | q :: rest =>
    let xs := (q :: rest).map (fun p => p.1)
    let ys := (q :: rest).map (fun p => p.2)
    decide (xs.foldl min q.1 ≤ px.1 ∧ px.1 ≤ xs.foldl max q.1 ∧
            ys.foldl min q.2 ≤ px.2 ∧ px.2 ≤ ys.foldl max q.2)

/-- `create_boundary_mask(shapely_polygon, minx, miny, maxx, maxy,
width_pixels, height_pixels)`: a greyscale mask, initially 0, with each
part's exterior ring (given as geographic coordinates) mapped through
`geo_to_pixel` and drawn filled with value 255. -/
def create_boundary_mask (rings : List (List (ℚ × ℚ))) (minx miny maxx maxy : ℚ)
    (width_pixels height_pixels : ℤ) (px : ℤ × ℤ) : ℕ :=
  if rings.any (fun ring =>
      polygon_fill (ring.map (fun c =>
        geo_to_pixel minx miny maxx maxy width_pixels height_pixels c.1 c.2)) px)
  then 255 else 0

/-- Modelled from the spec: PIL `Image.composite(image1, image2, mask)` with
the binary (0/255) masks produced here keeps `image1` where the mask is set
and `image2` where it is 0 — line 419 composites the merged mosaic against a
black background through the boundary mask. -/
def composite (image1 image2 : ℤ × ℤ → γ) (mask : ℤ × ℤ → ℕ) (px : ℤ × ℤ) : γ :=
  if mask px ≠ 0 then image1 px else image2 px

/-- The exterior ring of shapely `box(minx, miny, maxx, maxy)`
(counter-clockwise, closed). -/
def boxRing (minx miny maxx maxy : ℚ) : List (ℚ × ℚ) :=
  [(maxx, miny), (maxx, maxy), (minx, maxy), (minx, miny), (maxx, miny)]

theorem pyInt_intCast (n : ℤ) : pyInt (n : ℚ) = n := by
  rw [pyInt]
  split
  · exact Int.floor_intCast n
  · exact Int.ceil_intCast n

theorem polygon_fill_box (x1 y1 x2 y2 : ℤ) (px : ℤ × ℤ)
    (h : min x1 x2 ≤ px.1 ∧ px.1 ≤ max x1 x2 ∧ min y1 y2 ≤ px.2 ∧ px.2 ≤ max y1 y2) :
    polygon_fill [(x1, y1), (x1, y2), (x2, y2), (x2, y1), (x1, y1)] px = true := by
  simp only [polygon_fill, List.map_cons, List.map_nil, List.foldl]
  rw [decide_eq_true_eq]
  omega

/-- C9: for a rectangular boundary polygon equal to its own bounding box,
the boundary mask is fully opaque — every canvas pixel has mask value 255 —
so compositing the mosaic against the background through the mask leaves
every canvas pixel of the mosaic unchanged. -/
theorem boundary_mask_opaque_for_box (minx miny maxx maxy : ℚ) (W H : ℤ)
    (image1 image2 : ℤ × ℤ → γ) (px : ℤ × ℤ)
    (hx : minx < maxx) (hy : miny < maxy) (hW : 0 < W) (hH : 0 < H)
    (hpx1 : 0 ≤ px.1) (hpx2 : px.1 < W) (hpy1 : 0 ≤ px.2) (hpy2 : px.2 < H) :
    create_boundary_mask [boxRing minx miny maxx maxy] minx miny maxx maxy W H px = 255 ∧
    composite image1 image2
      (create_boundary_mask [boxRing minx miny maxx maxy] minx miny maxx maxy W H) px
      = image1 px := by
  have hne1 : maxx - minx ≠ 0 := ne_of_gt (sub_pos.mpr hx)
  have hne2 : maxy - miny ≠ 0 := ne_of_gt (sub_pos.mpr hy)
  have hz : pyInt 0 = 0 := by norm_num [pyInt]
  have e1 : geo_to_pixel minx miny maxx maxy W H maxx miny = (W - 1, H - 1) := by
    simp only [geo_to_pixel, div_self hne1, div_self hne2, one_mul, pyInt_intCast,
      Prod.mk.injEq]
    omega
  have e2 : geo_to_pixel minx miny maxx maxy W H maxx maxy = (W - 1, 0) := by
    simp only [geo_to_pixel, div_self hne1, one_mul, sub_self, zero_div, zero_mul,
      pyInt_intCast, hz, Prod.mk.injEq]
    omega
  have e3 : geo_to_pixel minx miny maxx maxy W H minx maxy = (0, 0) := by
    simp only [geo_to_pixel, sub_self, zero_div, zero_mul, hz, Prod.mk.injEq]
    omega
  have e4 : geo_to_pixel minx miny maxx maxy W H minx miny = (0, H - 1) := by
    simp only [geo_to_pixel, div_self hne2, one_mul, sub_self, zero_div, zero_mul,
      pyInt_intCast, hz, Prod.mk.injEq]
    omega
  have hring : ([boxRing minx miny maxx maxy].any (fun ring =>
      polygon_fill (ring.map (fun c =>
        geo_to_pixel minx miny maxx maxy W H c.1 c.2)) px)) = true := by
    simp only [boxRing, List.any_cons, List.any_nil, Bool.or_false, List.map_cons,
      List.map_nil, e1, e2, e3, e4]
    exact polygon_fill_box (W - 1) (H - 1) 0 0 px (by omega)
  have hmask : create_boundary_mask [boxRing minx miny maxx maxy] minx miny maxx maxy
      W H px = 255 := by
    rw [create_boundary_mask, if_pos hring]
  refine ⟨hmask, ?_⟩
  rw [composite, if_pos]
  rw [hmask]
  norm_num

/-- Witness for C9: a 4 x 3 canvas over the unit-square boundary, checked at
the pixel (2, 1). -/
theorem boundary_mask_opaque_for_box_witness :
    create_boundary_mask [boxRing 0 0 1 1] 0 0 1 1 4 3 (2, 1) = 255 ∧
    composite (fun _ => (1:ℕ)) (fun _ => 0)
      (create_boundary_mask [boxRing 0 0 1 1] 0 0 1 1 4 3) (2, 1) = 1 :=
  ⟨(boundary_mask_opaque_for_box 0 0 1 1 4 3 (fun _ => (1:ℕ)) (fun _ => 0) (2, 1)
      (by norm_num) (by norm_num) (by norm_num) (by norm_num)
      (by norm_num) (by norm_num) (by norm_num) (by norm_num)).1,
   (boundary_mask_opaque_for_box 0 0 1 1 4 3 (fun _ => (1:ℕ)) (fun _ => 0) (2, 1)
      (by norm_num) (by norm_num) (by norm_num) (by norm_num)
      (by norm_num) (by norm_num) (by norm_num) (by norm_num)).2⟩

/-- Witness for C4: three tiles with one failure assemble from the two
successes; the all-failure list yields no mosaic. -/
theorem process_and_export_image_partial_failure_witness :
    process_and_export_image [some 1, none, some 2] (fun l => l.length) = some 2 ∧
    process_and_export_image ([none, none] : List (Option ℕ)) (fun l => l.length) = none := by
  constructor
  · have h := (process_and_export_image_partial_failure [some (1:ℕ), none, some 2]
      (fun l => l.length)).1
    simpa using h
  · have h := (process_and_export_image_partial_failure ([none, none] : List (Option ℕ))
      (fun l => l.length)).1
    simpa using h

/-- Witness for C6: the forest-area derivation evaluated on a histogram with
30 tree pixels and 10 natural-forest pixels over 100 km². -/
theorem calculate_area_statistics_denominators_witness :
    (calculate_area_statistics [(1, 30), (10, 10)] 100).forest_area_km2 =
      round5 (area_of (class_areas [(1, 30), (10, 10)] 100) "natural_forest" +
        area_of (class_areas [(1, 30), (10, 10)] 100) "trees") :=
  (calculate_area_statistics_denominators [(1, 30), (10, 10)] 100).1
